import Mathlib

/-!
Shallow embedding of the rate-limit engine of the GradescopeBase autograder.

The embedding models `RateLimit` and `Autograder.rate_limit_main` from
`GradescopeBase/Autograder.py` (namespace `GradescopeBase`), together with the
token-counting loop of the legacy `Autograder.py` variant (namespace `Legacy`).
Timestamps are modelled as integers (seconds since the epoch, the value of
`time.mktime` on the parsed timestamp).  JSON payload fields that the Python
code accesses by key are modelled with `JsonField`, which distinguishes an
absent key (access raises `KeyError`), a key present with value `None`, and a
key present with a value; raising inside the `try` of the counting loop is the
`countDefensive` outcome, and raising elsewhere makes the modelled function
return `none`.
-/

namespace GradescopeBase

/-- Presence of a JSON key: the key may be absent from the object, present
with value null, or present with a proper value. -/
inductive JsonField (α : Type) where
  | absent : JsonField α
  | null : JsonField α
  | val : α → JsonField α
  deriving DecidableEq

/-- True exactly when the key is absent from the object. -/
def JsonField.isAbsent {α : Type} : JsonField α → Bool
  | .absent => true
  | _ => false

/-- The `extra_data` object stored in a previous submission's results:
`sub_counts` is read with `ed["sub_counts"]` (raises when absent) and the
submission id with `ed.get("id")` (never raises, `None` when absent). -/
structure ExtraData where
  sub_counts : JsonField Int
  id : Option String
  deriving DecidableEq

/-- The `results` payload stored with a previous submission.  `tests` models
the `"tests"` key (its elements are opaque, named by numbers), `leaderboard`
the `"leaderboard"` key and `score` a `"score"` key inside the payload. -/
structure StoredResults where
  extra_data : JsonField ExtraData
  score : Option Int
  tests : Option (List Nat)
  leaderboard : JsonField (List Nat)
  deriving DecidableEq

/-- Python truthiness of the stored results dict: true iff some key is present. -/
def StoredResults.isTruthy (r : StoredResults) : Bool :=
  !r.extra_data.isAbsent || r.score.isSome || r.tests.isSome || !r.leaderboard.isAbsent

/-- One entry of `metadata["previous_submissions"]`: the parsed submission
time, the optional `results` payload and the optional top-level `score`. -/
structure SubmissionRecord where
  submitted_at : Int
  results : JsonField StoredResults
  score : Option Int
  deriving DecidableEq

/-- The `RateLimit` configuration object.  `__init__` stores its arguments
verbatim; `reset_time` is modelled already parsed to epoch seconds. -/
structure RateLimit where
  tokens : Option Int
  seconds : Int
  minutes : Int
  hours : Int
  days : Int
  reset_time : Option Int
  pull_prev_run : Bool
  submission_id_exclude : List String
  deriving DecidableEq

/-- The constructor `RateLimit.__init__`: it stores every argument as a field
and performs no validation whatsoever. -/
def RateLimit.init (tokens : Option Int) (seconds minutes hours days : Int)
    (reset_time : Option Int) (pull_prev_run : Bool)
    (submission_id_exclude : List String) : RateLimit :=
  ⟨tokens, seconds, minutes, hours, days, reset_time, pull_prev_run, submission_id_exclude⟩

/-- `RateLimit.total_seconds`. -/
def RateLimit.total_seconds (rl : RateLimit) : Int :=
  rl.seconds + 60 * (rl.minutes + 60 * (rl.hours + 24 * rl.days))

/-- The reset-time filter of the counting loop:
`restart_time is not None and time.mktime(subm_time) - time.mktime(restart_time) < 0`. -/
def reset_filtered (reset : Option Int) (t : Int) : Bool :=
  match reset with
  | some rt => decide (t - rt < 0)
  | none => false

/-- What an in-window record does to the token count: nothing, a defensive
count through the `except` handler, or a genuine count (which also feeds the
oldest-counted tracking). -/
inductive TokenEffect where
  | skip
  | countDefensive
  | countReal
  deriving DecidableEq

/-- The body of the `try` in the counting loop of
`GradescopeBase/Autograder.py` applied to one in-window record:
`ed = rec["results"]["extra_data"]` (a `KeyError` or `TypeError` lands in the
`except` handler, which counts a token), then if `ed is not None`,
`subID = ed.get("id")` and the token is counted exactly when
`ed["sub_counts"] == 1` and `subID` is truthy and not excluded; a `None`
`extra_data` falls into the `else` branch which does nothing. -/
def record_token_effect (excl : List String) (results : JsonField StoredResults) :
    TokenEffect :=
  match results with
  | .absent => .countDefensive
  | .null => .countDefensive
  | .val res =>
    match res.extra_data with
    | .absent => .countDefensive
    | .null => .skip
    | .val ed =>
      match ed.sub_counts with
      | .absent => .countDefensive
      | .null => .skip
      | .val sc =>
        if sc = 1 then
          match ed.id with
          | none => .skip
          | some sid =>
            if sid = "" then .skip
            else if sid ∈ excl then .skip
            else .countReal
        else .skip

/-- The mutable accumulators of the counting loop. -/
structure CountState where
  tokens_used : Nat
  oldest_counted : Option Int
  deriving DecidableEq

/-- One iteration of the counting loop: skip records before the reset time,
skip records outside the regeneration window, otherwise apply the token
effect; only a genuine count sets `oldest_counted` (the `except` handler does
not touch it). -/
def count_step (now regen : Int) (reset : Option Int) (excl : List String)
    (st : CountState) (r : SubmissionRecord) : CountState :=
  if reset_filtered reset r.submitted_at then st
  else if now - r.submitted_at < regen then
    match record_token_effect excl r.results with
    | .skip => st
    | .countDefensive => ⟨st.tokens_used + 1, st.oldest_counted⟩
    | .countReal =>
      ⟨st.tokens_used + 1,
       match st.oldest_counted with
       | none => some r.submitted_at
       | some t => some t⟩
  else st

/-- The full counting loop over `metadata["previous_submissions"]`, in the
supplied order, starting from `tokens_used = 0` and no oldest-counted record. -/
def count_tokens (now regen : Int) (reset : Option Int) (excl : List String)
    (history : List SubmissionRecord) : CountState :=
  history.foldl (count_step now regen reset excl) ⟨0, none⟩

/-- The record predicate that genuinely counts: inside the reset filter,
inside the regeneration window, and carrying a well-formed counted payload
with an acceptable submission id. -/
def counts_real (now regen : Int) (reset : Option Int) (excl : List String)
    (r : SubmissionRecord) : Bool :=
  !reset_filtered reset r.submitted_at
    && decide (now - r.submitted_at < regen)
    && decide (record_token_effect excl r.results = .countReal)

/-- The replayed (or fallback) output of the pull-previous-run branch:
the score passed to `set_score`, the test list and leaderboard handed to
`generate_results`, and whether the could-not-pull error message was printed. -/
structure RehydratedOut where
  score : Option Int
  tests : List Nat
  leaderboard : JsonField (List Nat)
  error_message : Bool
  deriving DecidableEq

/-- The malformed-previous-run test of the pull-previous-run branch, with
Python's precedence and truthiness:
`(prev_sub and "results" not in prev_sub) or (prev_sub["results"] and "tests" not in prev_sub["results"])`.
A history entry always carries `submission_time`, so `prev_sub` is truthy. -/
def pull_prev_condition (prev : SubmissionRecord) : Bool :=
  prev.results.isAbsent
    || (match prev.results with
        | .val res => res.isTruthy && res.tests.isNone
        | _ => false)

/-- The pull-previous-run logic on denial: take the last history entry
(`IndexError` on an empty history), print the error fallback when the
malformed test fires, otherwise read `res["tests"]` and `res["leaderboard"]`
(either access raises when the payload is null, empty or lacks the key, which
makes the whole evaluation raise: result `none`) and replay them together
with the entry's top-level `score`. -/
def rehydrate (history : List SubmissionRecord) : Option RehydratedOut :=
  match history.getLast? with
  | none => none
  | some prev =>
    if pull_prev_condition prev then
      some ⟨some 0, [], .null, true⟩
    else
      match prev.results with
      | .absent => none
      | .null => none
      | .val res =>
        match res.tests with
        | none => none
        | some ts =>
          if res.leaderboard.isAbsent then none
          else some ⟨prev.score, ts, res.leaderboard, false⟩

/-- The next-token-regeneration part of a rate-limit message: either a
concrete regeneration timestamp or the no-tokens-used sentence. -/
inductive RegenMessage where
  | regenAt : Int → RegenMessage
  | noTokensUsed : RegenMessage
  deriving DecidableEq

/-- The regeneration sentence used by the denial branch: the oldest counted
submission time plus the window when one exists, else the no-tokens sentence. -/
def regen_message_of (oldest : Option Int) (regen : Int) : RegenMessage :=
  match oldest with
  | some t => .regenAt (t + regen)
  | none => .noTokensUsed

/-- What happens after a denial: score 0 with no tests when
`pull_prev_run` is off, otherwise the rehydrated replay, its error fallback,
or an exception escaping the rehydration. -/
inductive DenialBody where
  | selfZero
  | fallbackZero
  | replay : Option Int → List Nat → JsonField (List Nat) → DenialBody
  | rehydrationCrash
  deriving DecidableEq

/-- The observable content of the denial branch. -/
structure DenialInfo where
  reported_tokens : Nat
  regen_message : RegenMessage
  body : DenialBody
  deriving DecidableEq

/-- The observable content of the allowed branch. -/
structure GrantInfo where
  reported_tokens : Nat
  oldest_counted : Option Int
  deriving DecidableEq

/-- The way `rate_limit_main` returns to its caller: without having checked
anything, by letting the submission proceed to grading, or by writing results
and halting the process (`sys.exit`). -/
inductive RLOutcome where
  | notChecked
  | allowedProceed : GrantInfo → RLOutcome
  | deniedHalt : DenialInfo → RLOutcome
  deriving DecidableEq

/-- True exactly on the allowed outcome. -/
def RLOutcome.isAllowed : RLOutcome → Bool
  | .allowedProceed _ => true
  | _ => false

/-- The token count the outcome reports to the user. -/
def RLOutcome.reported : RLOutcome → Option Nat
  | .notChecked => none
  | .allowedProceed g => some g.reported_tokens
  | .deniedHalt d => some d.reported_tokens

/-- The fields of the `RateLimit` object that `rate_limit_main` and the
message stage mutate between them. -/
structure LedgerState where
  oldest_token_time : Option Int
  current_submission_time : Option Int
  main_tokens_used : Nat
  deriving DecidableEq

/-- The selection of the denial body: rehydrate when `pull_prev_run` is set
(an exception there escapes), else the plain zero result. -/
def denial_body (pull : Bool) (history : List SubmissionRecord) : DenialBody :=
  if pull then
    match rehydrate history with
    | none => .rehydrationCrash
    | some r => if r.error_message then .fallbackZero else .replay r.score r.tests r.leaderboard
  else .selfZero

/-- `Autograder.rate_limit_main`: skip everything on a local run without
`use_ratelimit_when_local`, skip when there is no `RateLimit` or its capacity
is `None`; otherwise count tokens over the history and either grant (flagging
`extra_data["sub_counts"] = 1`, reporting `tokens_used + 1`, and storing the
regeneration data in the `RateLimit` object) or deny (flagging
`sub_counts = 0`, reporting `tokens_used` as-is, printing the regeneration
sentence, emitting the denial results and halting).  The returned triple is
the updated ledger state, the outcome, and the value written to
`extra_data["sub_counts"]` (`none` when untouched). -/
def rate_limit_main (is_local use_ratelimit_when_local : Bool)
    (rl : Option RateLimit) (now : Int) (history : List SubmissionRecord)
    (st : LedgerState) : LedgerState × RLOutcome × Option Nat :=
  if is_local && !use_ratelimit_when_local then (st, .notChecked, none)
  else
    match rl with
    | none => (st, .notChecked, none)
    | some cfg =>
      match cfg.tokens with
      | none => (st, .notChecked, none)
      | some cap =>
        let regen := cfg.total_seconds
        let c := count_tokens now regen cfg.reset_time cfg.submission_id_exclude history
        if (c.tokens_used : Int) < cap then
          (⟨c.oldest_counted, some now, c.tokens_used + 1⟩,
           .allowedProceed ⟨c.tokens_used + 1, c.oldest_counted⟩, some 1)
        else
          (st,
           .deniedHalt ⟨c.tokens_used, regen_message_of c.oldest_counted regen,
                        denial_body cfg.pull_prev_run history⟩,
           some 0)

/-- The regeneration part of `RateLimit.get_rate_limit_str`: prefer the
oldest token time; failing that, use the current submission time when the
current submission counts; only when neither applies emit the no-tokens
sentence. -/
def get_rate_limit_regen_part (regen : Int) (st : LedgerState) (sub_counts : Nat) :
    RegenMessage :=
  let sub_to_count : Option Int :=
    match st.oldest_token_time with
    | some t => some t
    | none => if sub_counts ≠ 0 then st.current_submission_time else none
  match sub_to_count with
  | some t => .regenAt (t + regen)
  | none => .noTokensUsed

end GradescopeBase

namespace Legacy

open GradescopeBase (JsonField StoredResults ExtraData)

/-- The counting test of the legacy `Autograder.py` variant: it reads
`rec["results"]["extra_data"]["sub_counts"]` with no `None` check and no
submission-id logic, under a bare `except` that counts a token; it counts
exactly when the chain resolves to `1` or any access raises (so a null
`extra_data` raises a `TypeError` and is counted). -/
def record_counts (results : JsonField StoredResults) : Bool :=
  match results with
  | .absent => true
  | .null => true
  | .val res =>
    match res.extra_data with
    | .absent => true
    | .null => true
    | .val ed =>
      match ed.sub_counts with
      | .absent => true
      | .null => false
      | .val sc => decide (sc = 1)

end Legacy

/-!
Lemmas and theorems about the embedded rate-limit engine.
-/

namespace GradescopeBase

lemma count_step_out_of_window (now regen : Int) (reset : Option Int) (excl : List String)
    (st : CountState) (r : SubmissionRecord) (h : regen ≤ now - r.submitted_at) :
    count_step now regen reset excl st r = st := by
  unfold count_step
  split
  · rfl
  · split
    · omega
    · rfl

lemma count_tokens_all_out (now regen : Int) (reset : Option Int) (excl : List String)
    (history : List SubmissionRecord)
    (h : ∀ r ∈ history, regen ≤ now - r.submitted_at) :
    count_tokens now regen reset excl history = ⟨0, none⟩ := by
  unfold count_tokens
  induction history with
  | nil => rfl
  | cons r tl ih =>
    rw [List.foldl_cons, count_step_out_of_window now regen reset excl _ r (h r (by simp))]
    exact ih fun x hx => h x (by simp [hx])


lemma count_step_oldest_preserved (now regen : Int) (reset : Option Int) (excl : List String)
    (st : CountState) (r : SubmissionRecord) (t : Int) (h : st.oldest_counted = some t) :
    (count_step now regen reset excl st r).oldest_counted = some t := by
  unfold count_step
  split
  · exact h
  · split
    · cases heff : record_token_effect excl r.results <;> simp [heff, h]
    · exact h

lemma foldl_oldest_preserved (now regen : Int) (reset : Option Int) (excl : List String)
    (l : List SubmissionRecord) (st : CountState) (t : Int) (h : st.oldest_counted = some t) :
    (l.foldl (count_step now regen reset excl) st).oldest_counted = some t := by
  induction l generalizing st with
  | nil => exact h
  | cons r tl ih =>
    rw [List.foldl_cons]
    exact ih _ (count_step_oldest_preserved now regen reset excl st r t h)

lemma count_step_not_real (now regen : Int) (reset : Option Int) (excl : List String)
    (st : CountState) (r : SubmissionRecord)
    (h : counts_real now regen reset excl r = false) :
    (count_step now regen reset excl st r).oldest_counted = st.oldest_counted := by
  unfold counts_real at h
  unfold count_step
  split
  · rfl
  · split
    · rename_i hrf hwin
      cases heff : record_token_effect excl r.results
      · simp [heff]
      · simp [heff]
      · exfalso
        simp [hrf, hwin, heff] at h
    · rfl

lemma count_step_real (now regen : Int) (reset : Option Int) (excl : List String)
    (st : CountState) (r : SubmissionRecord)
    (h : counts_real now regen reset excl r = true) (hst : st.oldest_counted = none) :
    (count_step now regen reset excl st r).oldest_counted = some r.submitted_at := by
  unfold counts_real at h
  simp only [Bool.and_eq_true, Bool.not_eq_true', decide_eq_true_eq] at h
  obtain ⟨⟨h1, h2⟩, h3⟩ := h
  unfold count_step
  rw [if_neg (by simp [h1]), if_pos h2, h3]
  simp [hst]

lemma foldl_oldest_find (now regen : Int) (reset : Option Int) (excl : List String)
    (l : List SubmissionRecord) (n : Nat) :
    (l.foldl (count_step now regen reset excl) ⟨n, none⟩).oldest_counted
      = (l.find? (counts_real now regen reset excl)).map SubmissionRecord.submitted_at := by
  induction l generalizing n with
  | nil => rfl
  | cons r tl ih =>
    rw [List.foldl_cons]
    by_cases hcr : counts_real now regen reset excl r = true
    · rw [List.find?_cons_of_pos _ hcr, Option.map_some']
      exact foldl_oldest_preserved now regen reset excl tl _ r.submitted_at
        (count_step_real now regen reset excl ⟨n, none⟩ r hcr rfl)
    · rw [List.find?_cons_of_neg _ hcr]
      have hnone : (count_step now regen reset excl ⟨n, none⟩ r).oldest_counted = none :=
        count_step_not_real now regen reset excl ⟨n, none⟩ r (by simpa using hcr)
      have : count_step now regen reset excl ⟨n, none⟩ r
          = ⟨(count_step now regen reset excl ⟨n, none⟩ r).tokens_used, none⟩ := by
        cases hc : count_step now regen reset excl ⟨n, none⟩ r
        simpa [hc] using hnone
      rw [this]
      exact ih _

lemma count_tokens_oldest (now regen : Int) (reset : Option Int) (excl : List String)
    (history : List SubmissionRecord) :
    (count_tokens now regen reset excl history).oldest_counted
      = (history.find? (counts_real now regen reset excl)).map SubmissionRecord.submitted_at :=
  foldl_oldest_find now regen reset excl history 0


lemma rate_limit_main_granted (uw : Bool) (cap s m h d : Int) (rt : Option Int) (pull : Bool)
    (excl : List String) (now : Int) (history : List SubmissionRecord) (st : LedgerState)
    (hlt : ((count_tokens now (RateLimit.total_seconds ⟨some cap, s, m, h, d, rt, pull, excl⟩)
        rt excl history).tokens_used : Int) < cap) :
    rate_limit_main false uw (some ⟨some cap, s, m, h, d, rt, pull, excl⟩) now history st
      = (⟨(count_tokens now (RateLimit.total_seconds ⟨some cap, s, m, h, d, rt, pull, excl⟩)
            rt excl history).oldest_counted, some now,
          (count_tokens now (RateLimit.total_seconds ⟨some cap, s, m, h, d, rt, pull, excl⟩)
            rt excl history).tokens_used + 1⟩,
         .allowedProceed ⟨(count_tokens now (RateLimit.total_seconds ⟨some cap, s, m, h, d, rt, pull, excl⟩)
            rt excl history).tokens_used + 1,
          (count_tokens now (RateLimit.total_seconds ⟨some cap, s, m, h, d, rt, pull, excl⟩)
            rt excl history).oldest_counted⟩, some 1) := by
  simp [rate_limit_main, hlt]

lemma rate_limit_main_denied (uw : Bool) (cap s m h d : Int) (rt : Option Int) (pull : Bool)
    (excl : List String) (now : Int) (history : List SubmissionRecord) (st : LedgerState)
    (hge : ¬ ((count_tokens now (RateLimit.total_seconds ⟨some cap, s, m, h, d, rt, pull, excl⟩)
        rt excl history).tokens_used : Int) < cap) :
    rate_limit_main false uw (some ⟨some cap, s, m, h, d, rt, pull, excl⟩) now history st
      = (st,
         .deniedHalt ⟨(count_tokens now (RateLimit.total_seconds ⟨some cap, s, m, h, d, rt, pull, excl⟩)
            rt excl history).tokens_used,
           regen_message_of ((count_tokens now (RateLimit.total_seconds ⟨some cap, s, m, h, d, rt, pull, excl⟩)
            rt excl history).oldest_counted) (RateLimit.total_seconds ⟨some cap, s, m, h, d, rt, pull, excl⟩),
           denial_body pull history⟩, some 0) := by
  simp [rate_limit_main, hge]

/-- Claim C10: on a run detected as local with `use_ratelimit_when_local = false`,
`rate_limit_main` returns immediately: no token accounting happens, the outcome is
neither a grant nor a denial-halt (the submission proceeds to grading regardless of
capacity or history), the ledger state is untouched and `extra_data["sub_counts"]`
is never written. -/
theorem C10_local_run_skips_rate_limit (rl : Option RateLimit) (now : Int)
    (history : List SubmissionRecord) (st : LedgerState) :
    rate_limit_main true false rl now history st = (st, .notChecked, none) := by
  simp [rate_limit_main]

/-- Claim C9: the rate-limit evaluation is deterministic and stateless across
calls: its outcome and the `sub_counts` flag it writes are a pure function of
(now, config, history) and do not depend on any state the `RateLimit` ledger
object retained from earlier calls. -/
theorem C9_decision_stateless (is_local uw : Bool) (rl : Option RateLimit) (now : Int)
    (history : List SubmissionRecord) (s1 s2 : LedgerState) :
    (rate_limit_main is_local uw rl now history s1).2
      = (rate_limit_main is_local uw rl now history s2).2 := by
  unfold rate_limit_main
  split
  · rfl
  · match rl with
    | none => rfl
    | some ⟨none, s, m, h, d, rt, pull, excl⟩ => rfl
    | some ⟨some cap, s, m, h, d, rt, pull, excl⟩ =>
      simp only
      split <;> rfl

/-- Claim C1: with a non-null capacity, the submission is allowed exactly when
the token count from the history is strictly below the capacity; when allowed
the reported count is `tokens_used + 1` and `extra_data["sub_counts"]` is set
to 1; when denied `tokens_used` is reported as-is and `sub_counts` is set to 0. -/
theorem C1_grant_iff_tokens_below_capacity (uw : Bool) (cap s m h d : Int)
    (rt : Option Int) (pull : Bool) (excl : List String) (now : Int)
    (history : List SubmissionRecord) (st : LedgerState) :
    let cfg : RateLimit := ⟨some cap, s, m, h, d, rt, pull, excl⟩
    let c := count_tokens now cfg.total_seconds rt excl history
    let res := rate_limit_main false uw (some cfg) now history st
    (res.2.1.isAllowed = true ↔ (c.tokens_used : Int) < cap)
    ∧ ((c.tokens_used : Int) < cap →
        res.2.1 = .allowedProceed ⟨c.tokens_used + 1, c.oldest_counted⟩ ∧ res.2.2 = some 1)
    ∧ (¬ (c.tokens_used : Int) < cap →
        res.2.1.reported = some c.tokens_used ∧ res.2.2 = some 0) := by
  intro cfg c res
  by_cases hlt : (c.tokens_used : Int) < cap
  · have hmain := rate_limit_main_granted uw cap s m h d rt pull excl now history st hlt
    refine ⟨?_, fun _ => ?_, fun hn => absurd hlt hn⟩
    · show (rate_limit_main false uw (some cfg) now history st).2.1.isAllowed = true ↔ _
      rw [hmain]
      simp [RLOutcome.isAllowed, hlt]
    · show (rate_limit_main false uw (some cfg) now history st).2.1 = _ ∧
        (rate_limit_main false uw (some cfg) now history st).2.2 = some 1
      rw [hmain]
      exact ⟨rfl, rfl⟩
  · have hmain := rate_limit_main_denied uw cap s m h d rt pull excl now history st hlt
    refine ⟨?_, fun hl => absurd hl hlt, fun _ => ?_⟩
    · show (rate_limit_main false uw (some cfg) now history st).2.1.isAllowed = true ↔ _
      rw [hmain]
      simp [RLOutcome.isAllowed, hlt]
    · show (rate_limit_main false uw (some cfg) now history st).2.1.reported = _ ∧
        (rate_limit_main false uw (some cfg) now history st).2.2 = some 0
      rw [hmain]
      exact ⟨rfl, rfl⟩

/-- Witness for C1: with capacity 1, a 10-second window and an empty history,
the evaluation grants, reports one token (the current submission) and sets
`sub_counts` to 1. -/
theorem C1_witness :
    (rate_limit_main false false (some ⟨some 1, 10, 0, 0, 0, none, false, []⟩) 100 []
        ⟨none, none, 0⟩).2.1 = .allowedProceed ⟨1, none⟩
    ∧ (rate_limit_main false false (some ⟨some 1, 10, 0, 0, 0, none, false, []⟩) 100 []
        ⟨none, none, 0⟩).2.2 = some 1 :=
  (C1_grant_iff_tokens_below_capacity false 1 10 0 0 0 none false [] 100 []
    ⟨none, none, 0⟩).2.1 (by decide)


/-- Claim C5: a record whose age `now - submitted_at` is at least the window's
total seconds is skipped and contributes no token; consequently, when every
record of the history is outside the regeneration window, `tokens_used = 0`
and the submission is allowed for any capacity of at least 1. -/
theorem C5_outside_window_regenerated (uw : Bool) (cap s m h d : Int)
    (rt : Option Int) (pull : Bool) (excl : List String) (now : Int)
    (history : List SubmissionRecord) (st : LedgerState) :
    let regen := RateLimit.total_seconds ⟨some cap, s, m, h, d, rt, pull, excl⟩
    (∀ cst r, regen ≤ now - r.submitted_at → count_step now regen rt excl cst r = cst)
    ∧ ((∀ x ∈ history, regen ≤ now - x.submitted_at) →
        (count_tokens now regen rt excl history).tokens_used = 0
        ∧ (1 ≤ cap →
            (rate_limit_main false uw (some ⟨some cap, s, m, h, d, rt, pull, excl⟩)
              now history st).2.1.isAllowed = true)) := by
  intro regen
  refine ⟨fun cst r hr => count_step_out_of_window now regen rt excl cst r hr, fun hall => ?_⟩
  have hct : count_tokens now regen rt excl history = ⟨0, none⟩ :=
    count_tokens_all_out now regen rt excl history hall
  refine ⟨by rw [hct], fun hcap => ?_⟩
  have hlt : ((count_tokens now regen rt excl history).tokens_used : Int) < cap := by
    rw [hct]; exact_mod_cast hcap
  rw [rate_limit_main_granted uw cap s m h d rt pull excl now history st hlt]
  rfl

/-- Witness for C5: with a 60-second window, a single counted record 60 seconds
old contributes nothing and the submission is allowed at capacity 1. -/
theorem C5_witness :
    count_step 100 60 none [] ⟨0, none⟩
        ⟨40, .val ⟨.val ⟨.val 1, some "w"⟩, none, none, .absent⟩, none⟩ = ⟨0, none⟩
    ∧ (count_tokens 100 60 none []
        [⟨40, .val ⟨.val ⟨.val 1, some "w"⟩, none, none, .absent⟩, none⟩]).tokens_used = 0
    ∧ (rate_limit_main false false (some ⟨some 1, 60, 0, 0, 0, none, false, []⟩) 100
        [⟨40, .val ⟨.val ⟨.val 1, some "w"⟩, none, none, .absent⟩, none⟩]
        ⟨none, none, 0⟩).2.1.isAllowed = true := by
  have h := C5_outside_window_regenerated false 1 60 0 0 0 none false [] 100
    [⟨40, .val ⟨.val ⟨.val 1, some "w"⟩, none, none, .absent⟩, none⟩] ⟨none, none, 0⟩
  have h2 := h.2 (by intro x hx; simp at hx; rw [hx]; decide)
  exact ⟨h.1 ⟨0, none⟩ _ (by decide), h2.1, h2.2 (by decide)⟩

/-- Claim C6: when a reset time is configured, a record submitted strictly
before it is skipped entirely (contributing no token, whatever the window),
while a record at or after the reset time is treated exactly as if no reset
time were configured. -/
theorem C6_reset_time_strict_filter (now regen rtv : Int) (excl : List String)
    (cst : CountState) (r : SubmissionRecord) :
    (r.submitted_at < rtv → count_step now regen (some rtv) excl cst r = cst)
    ∧ (rtv ≤ r.submitted_at →
        count_step now regen (some rtv) excl cst r = count_step now regen none excl cst r) := by
  constructor
  · intro hlt
    unfold count_step
    rw [if_pos (by simp [reset_filtered]; omega)]
  · intro hge
    have h1 : reset_filtered (some rtv) r.submitted_at = false := by
      simp [reset_filtered]; omega
    have h2 : reset_filtered none r.submitted_at = false := rfl
    unfold count_step
    rw [h1, h2]

/-- Witness for C6: a record one second before the reset time is dropped even
though it is a counted in-window record, and one exactly at the reset time is
processed as without a reset time (here: counted). -/
theorem C6_witness :
    count_step 100 60 (some 50) [] ⟨0, none⟩
        ⟨49, .val ⟨.val ⟨.val 1, some "w"⟩, none, none, .absent⟩, none⟩ = ⟨0, none⟩
    ∧ count_step 100 60 (some 50) [] ⟨0, none⟩
        ⟨50, .val ⟨.val ⟨.val 1, some "w"⟩, none, none, .absent⟩, none⟩
      = count_step 100 60 none [] ⟨0, none⟩
        ⟨50, .val ⟨.val ⟨.val 1, some "w"⟩, none, none, .absent⟩, none⟩ :=
  ⟨(C6_reset_time_strict_filter 100 60 50 [] ⟨0, none⟩
      ⟨49, .val ⟨.val ⟨.val 1, some "w"⟩, none, none, .absent⟩, none⟩).1 (by decide),
   (C6_reset_time_strict_filter 100 60 50 [] ⟨0, none⟩
      ⟨50, .val ⟨.val ⟨.val 1, some "w"⟩, none, none, .absent⟩, none⟩).2 (by decide)⟩

/-- Counterexample to claim C2: an in-window record whose results payload is
well-formed except that `extra_data` is present but null contributes no token
(the code's `else` branch only logs), so with capacity 1 the evaluation still
grants; the claim demanded that such a record count one token, which would
have denied. -/
theorem C2_counterexample :
    (count_tokens 100 60 none []
        [⟨95, .val ⟨.null, none, none, .absent⟩, none⟩]).tokens_used = 0
    ∧ (rate_limit_main false false (some ⟨some 1, 60, 0, 0, 0, none, false, []⟩) 100
        [⟨95, .val ⟨.null, none, none, .absent⟩, none⟩] ⟨none, none, 0⟩).2.1
      = .allowedProceed ⟨1, none⟩ := by decide

/-- Amended claim C2: for an in-window record, an absent results key, a null
results value, an absent `extra_data` key or an absent `sub_counts` key each
count one token defensively (through the exception handler, without
crashing); but an `extra_data` key that is present with value null contributes
no token in the `GradescopeBase` variant — only the legacy `Autograder.py`
variant counts that case. -/
theorem C2_amended_malformed_defensive (now regen : Int) (reset : Option Int)
    (excl : List String) (cst : CountState) (t : Int)
    (hreset : reset_filtered reset t = false) (hwin : now - t < regen) :
    (∀ tops, (count_step now regen reset excl cst ⟨t, .absent, tops⟩).tokens_used
        = cst.tokens_used + 1)
    ∧ (∀ tops, (count_step now regen reset excl cst ⟨t, .null, tops⟩).tokens_used
        = cst.tokens_used + 1)
    ∧ (∀ tops sr, sr.extra_data = .absent →
        (count_step now regen reset excl cst ⟨t, .val sr, tops⟩).tokens_used
          = cst.tokens_used + 1)
    ∧ (∀ tops sr ed, sr.extra_data = .val ed → ed.sub_counts = .absent →
        (count_step now regen reset excl cst ⟨t, .val sr, tops⟩).tokens_used
          = cst.tokens_used + 1)
    ∧ (∀ tops sr, sr.extra_data = .null →
        (count_step now regen reset excl cst ⟨t, .val sr, tops⟩).tokens_used
          = cst.tokens_used)
    ∧ (∀ sr, sr.extra_data = .null → Legacy.record_counts (.val sr) = true) := by
  refine ⟨fun tops => ?_, fun tops => ?_, fun tops sr hsr => ?_,
    fun tops sr ed hsr hsc => ?_, fun tops sr hsr => ?_, fun sr hsr => ?_⟩
  · simp [count_step, hreset, hwin, record_token_effect]
  · simp [count_step, hreset, hwin, record_token_effect]
  · simp [count_step, hreset, hwin, record_token_effect, hsr]
  · simp [count_step, hreset, hwin, record_token_effect, hsr, hsc]
  · simp [count_step, hreset, hwin, record_token_effect, hsr]
  · simp [Legacy.record_counts, hsr]

/-- Witness for C2 (amended): concrete in-window records with an absent
results key and with a null `extra_data`, and the legacy variant's treatment
of the latter. -/
theorem C2_amended_witness :
    (count_step 100 60 none [] ⟨0, none⟩ ⟨95, .absent, none⟩).tokens_used = 0 + 1
    ∧ (count_step 100 60 none [] ⟨0, none⟩
        ⟨95, .val ⟨.null, none, none, .absent⟩, none⟩).tokens_used = 0
    ∧ Legacy.record_counts (.val ⟨.null, none, none, .absent⟩) = true := by
  have h := C2_amended_malformed_defensive 100 60 none [] ⟨0, none⟩ 95 rfl (by decide)
  exact ⟨h.1 none, h.2.2.2.2.1 none ⟨.null, none, none, .absent⟩ rfl,
    h.2.2.2.2.2 ⟨.null, none, none, .absent⟩ rfl⟩

/-- Counterexample to claim C3: an in-window record with `sub_counts = 1`
(counted) whose submission id is absent — hence certainly not in the exclusion
set — contributes no token, though the claim demanded an increment. -/
theorem C3_counterexample :
    (count_tokens 100 60 none []
        [⟨95, .val ⟨.val ⟨.val 1, none⟩, none, none, .absent⟩, none⟩]).tokens_used = 0 := by
  decide

/-- Amended claim C3: for an in-window record with a well-formed payload,
`tokens_used` is incremented exactly when `sub_counts = 1` AND the submission
id is present, non-empty and not in `submission_id_exclude`; in particular a
counted record whose id is absent (or empty) contributes nothing. -/
theorem C3_amended_id_required (now regen : Int) (reset : Option Int)
    (excl : List String) (cst : CountState) (t : Int) (tops : Option Int)
    (sr : StoredResults) (ed : ExtraData) (sc : Int)
    (hreset : reset_filtered reset t = false) (hwin : now - t < regen)
    (hed : sr.extra_data = .val ed) (hsc : ed.sub_counts = .val sc) :
    (count_step now regen reset excl cst ⟨t, .val sr, tops⟩).tokens_used
        = cst.tokens_used + 1
      ↔ sc = 1 ∧ ∃ i, ed.id = some i ∧ i ≠ "" ∧ i ∉ excl := by
  by_cases hsc1 : sc = 1
  · cases hid : ed.id with
    | none =>
      simp [count_step, hreset, hwin, record_token_effect, hed, hsc, hsc1, hid]
    | some sid =>
      by_cases hemp : sid = ""
      · simp [count_step, hreset, hwin, record_token_effect, hed, hsc, hsc1, hid, hemp]
      · by_cases hexcl : sid ∈ excl
        · simp [count_step, hreset, hwin, record_token_effect, hed, hsc, hsc1, hid, hemp, hexcl]
        · simp [count_step, hreset, hwin, record_token_effect, hed, hsc, hsc1, hid, hemp, hexcl]
  · simp [count_step, hreset, hwin, record_token_effect, hed, hsc, hsc1]

/-- Witness for C3 (amended): a concrete counted in-window record with a
present, non-excluded id increments the count. -/
theorem C3_amended_witness :
    (count_step 100 60 none [] ⟨0, none⟩
        ⟨95, .val ⟨.val ⟨.val 1, some "s1"⟩, none, none, .absent⟩, none⟩).tokens_used
      = 0 + 1 :=
  (C3_amended_id_required 100 60 none [] ⟨0, none⟩ 95 none
      ⟨.val ⟨.val 1, some "s1"⟩, none, none, .absent⟩ ⟨.val 1, some "s1"⟩ 1
      rfl (by decide) rfl rfl).mpr
    ⟨rfl, "s1", rfl, by decide, by decide⟩


lemma rehydrate_results_absent (history : List SubmissionRecord) (prev : SubmissionRecord)
    (hlast : history.getLast? = some prev) (h : prev.results = .absent) :
    rehydrate history = some ⟨some 0, [], .null, true⟩ := by
  unfold rehydrate
  rw [hlast]
  simp [pull_prev_condition, h, JsonField.isAbsent]

lemma rehydrate_no_tests (history : List SubmissionRecord) (prev : SubmissionRecord)
    (res : StoredResults) (hlast : history.getLast? = some prev)
    (h : prev.results = .val res) (htr : res.isTruthy = true) (hts : res.tests = none) :
    rehydrate history = some ⟨some 0, [], .null, true⟩ := by
  unfold rehydrate
  rw [hlast]
  simp [pull_prev_condition, h, JsonField.isAbsent, htr, hts]

lemma rehydrate_replay (history : List SubmissionRecord) (prev : SubmissionRecord)
    (res : StoredResults) (ts : List Nat) (hlast : history.getLast? = some prev)
    (h : prev.results = .val res) (hts : res.tests = some ts)
    (hlb : res.leaderboard.isAbsent = false) :
    rehydrate history = some ⟨prev.score, ts, res.leaderboard, false⟩ := by
  unfold rehydrate
  rw [hlast]
  have hcond : pull_prev_condition prev = false := by
    simp [pull_prev_condition, h, JsonField.isAbsent, hts]
  simp [hcond, h, hts, hlb]

lemma rehydrate_results_null (history : List SubmissionRecord) (prev : SubmissionRecord)
    (hlast : history.getLast? = some prev) (h : prev.results = .null) :
    rehydrate history = none := by
  unfold rehydrate
  rw [hlast]
  have hcond : pull_prev_condition prev = false := by
    simp [pull_prev_condition, h, JsonField.isAbsent]
  simp [hcond, h]

/-- Counterexample to claim C4: capacity 1, `pull_prev_run` on, one in-window
record whose `results` key is present but null.  The record is counted
defensively, the submission is denied, and the rehydration — the last entry
"lacks a results payload" in the claim's terms — does not fall back to a zero
score: reading `prev_sub["results"]["tests"]` raises, and the exception
escapes (`rehydrate` returns `none`, the outcome records a crash, not the
fallback). -/
theorem C4_counterexample :
    rehydrate [⟨950, .null, none⟩] = none
    ∧ (rate_limit_main false false (some ⟨some 1, 100, 0, 0, 0, none, true, []⟩) 1000
        [⟨950, .null, none⟩] ⟨none, none, 0⟩).2.1
      = .deniedHalt ⟨1, .noTokensUsed, .rehydrationCrash⟩
    ∧ (rate_limit_main false false (some ⟨some 1, 100, 0, 0, 0, none, true, []⟩) 1000
        [⟨950, .null, none⟩] ⟨none, none, 0⟩).2.1
      ≠ .deniedHalt ⟨1, .noTokensUsed, .fallbackZero⟩ := by decide

/-- Amended claim C4: on a denial with `pull_prev_run` enabled, rehydration
takes exactly the last history entry; `sub_counts` is reported as 0.  If that
entry's `results` key is absent, or its payload is non-empty but lacks a test
list, the output falls back to score 0 with an empty test list and an
explanatory message; if the payload has a test list and a leaderboard key, the
entry's top-level score, its test list and its leaderboard are replayed
verbatim.  A `results` key that is present but null is neither: the
rehydration raises and the exception escapes. -/
theorem C4_amended_rehydration (uw : Bool) (cap s m h d : Int) (rt : Option Int)
    (excl : List String) (now : Int) (history : List SubmissionRecord)
    (st : LedgerState) (prev : SubmissionRecord)
    (hlast : history.getLast? = some prev)
    (hden : ¬ ((count_tokens now (RateLimit.total_seconds ⟨some cap, s, m, h, d, rt, true, excl⟩)
        rt excl history).tokens_used : Int) < cap) :
    let regen := RateLimit.total_seconds ⟨some cap, s, m, h, d, rt, true, excl⟩
    let c := count_tokens now regen rt excl history
    let res := rate_limit_main false uw (some ⟨some cap, s, m, h, d, rt, true, excl⟩) now history st
    res.2.2 = some 0
    ∧ (prev.results = .absent →
        res.2.1 = .deniedHalt ⟨c.tokens_used, regen_message_of c.oldest_counted regen, .fallbackZero⟩)
    ∧ (∀ r, prev.results = .val r → r.isTruthy = true → r.tests = none →
        res.2.1 = .deniedHalt ⟨c.tokens_used, regen_message_of c.oldest_counted regen, .fallbackZero⟩)
    ∧ (∀ r ts, prev.results = .val r → r.tests = some ts → r.leaderboard.isAbsent = false →
        res.2.1 = .deniedHalt ⟨c.tokens_used, regen_message_of c.oldest_counted regen,
          .replay prev.score ts r.leaderboard⟩)
    ∧ (prev.results = .null →
        res.2.1 = .deniedHalt ⟨c.tokens_used, regen_message_of c.oldest_counted regen,
          .rehydrationCrash⟩) := by
  intro regen c res
  have hmain := rate_limit_main_denied uw cap s m h d rt true excl now history st hden
  refine ⟨?_, fun habs => ?_, fun r hval htr hts => ?_, fun r ts hval hts hlb => ?_,
    fun hnull => ?_⟩
  · show (rate_limit_main false uw (some ⟨some cap, s, m, h, d, rt, true, excl⟩)
      now history st).2.2 = some 0
    rw [hmain]
  · show (rate_limit_main false uw (some ⟨some cap, s, m, h, d, rt, true, excl⟩)
      now history st).2.1 = _
    rw [hmain]
    simp [denial_body, rehydrate_results_absent history prev hlast habs]
  · show (rate_limit_main false uw (some ⟨some cap, s, m, h, d, rt, true, excl⟩)
      now history st).2.1 = _
    rw [hmain]
    simp [denial_body, rehydrate_no_tests history prev r hlast hval htr hts]
  · show (rate_limit_main false uw (some ⟨some cap, s, m, h, d, rt, true, excl⟩)
      now history st).2.1 = _
    rw [hmain]
    simp [denial_body, rehydrate_replay history prev r ts hlast hval hts hlb]
  · show (rate_limit_main false uw (some ⟨some cap, s, m, h, d, rt, true, excl⟩)
      now history st).2.1 = _
    rw [hmain]
    simp [denial_body, rehydrate_results_null history prev hlast hnull]

/-- Witness for C4 (amended): capacity 1, one counted in-window record whose
payload holds score 7, a test list and a null leaderboard — the denial replays
those verbatim with `sub_counts = 0`. -/
theorem C4_witness :
    (rate_limit_main false false (some ⟨some 1, 100, 0, 0, 0, none, true, []⟩) 1000
        [⟨950, .val ⟨.val ⟨.val 1, some "p"⟩, some 7, some [3, 4], .null⟩, some 7⟩]
        ⟨none, none, 0⟩).2.2 = some 0
    ∧ (rate_limit_main false false (some ⟨some 1, 100, 0, 0, 0, none, true, []⟩) 1000
        [⟨950, .val ⟨.val ⟨.val 1, some "p"⟩, some 7, some [3, 4], .null⟩, some 7⟩]
        ⟨none, none, 0⟩).2.1
      = .deniedHalt ⟨1, .regenAt 1050, .replay (some 7) [3, 4] .null⟩ := by
  have h := C4_amended_rehydration false 1 100 0 0 0 none [] 1000
    [⟨950, .val ⟨.val ⟨.val 1, some "p"⟩, some 7, some [3, 4], .null⟩, some 7⟩]
    ⟨none, none, 0⟩
    ⟨950, .val ⟨.val ⟨.val 1, some "p"⟩, some 7, some [3, 4], .null⟩, some 7⟩
    rfl (by decide)
  exact ⟨h.1, h.2.2.2.1 ⟨.val ⟨.val 1, some "p"⟩, some 7, some [3, 4], .null⟩ [3, 4]
    rfl rfl rfl⟩


/-- Counterexample to claim C7: an allowed evaluation over an empty history
has no oldest counted record, yet the user-facing message does not state that
no tokens have been used — because the current submission counts, the message
stage uses the current submission time and reports regeneration at
`now + window` (here 100 + 60 = 160). -/
theorem C7_counterexample :
    (rate_limit_main false false (some ⟨some 1, 60, 0, 0, 0, none, false, []⟩) 100 []
        ⟨none, none, 0⟩).2.1.isAllowed = true
    ∧ (count_tokens 100 60 none [] []).oldest_counted = none
    ∧ get_rate_limit_regen_part 60
        (rate_limit_main false false (some ⟨some 1, 60, 0, 0, 0, none, false, []⟩) 100 []
          ⟨none, none, 0⟩).1 1
      = .regenAt 160
    ∧ get_rate_limit_regen_part 60
        (rate_limit_main false false (some ⟨some 1, 60, 0, 0, 0, none, false, []⟩) 100 []
          ⟨none, none, 0⟩).1 1
      ≠ .noTokensUsed := by decide

/-- Amended claim C7: `oldest_counted` is the `submitted_at` of the first
record of the supplied iteration order that genuinely counts (in-window,
not reset-filtered, well-formed, `sub_counts = 1`, with a present non-excluded
id).  When it is known, both the denial message and the post-run message
report regeneration at `oldest_counted + window`.  When it is unknown, only
the denial message states that no tokens have been used; the allowed-path
message instead reports `current submission time + window`, since the current
submission itself counts. -/
theorem C7_amended_oldest_and_message (uw : Bool) (cap s m h d : Int)
    (rt : Option Int) (pull : Bool) (excl : List String) (now : Int)
    (history : List SubmissionRecord) (st : LedgerState) :
    let regen := RateLimit.total_seconds ⟨some cap, s, m, h, d, rt, pull, excl⟩
    let c := count_tokens now regen rt excl history
    let res := rate_limit_main false uw (some ⟨some cap, s, m, h, d, rt, pull, excl⟩) now history st
    c.oldest_counted
        = (history.find? (counts_real now regen rt excl)).map SubmissionRecord.submitted_at
    ∧ (∀ t, c.oldest_counted = some t →
        (¬ (c.tokens_used : Int) < cap →
          res.2.1 = .deniedHalt ⟨c.tokens_used, .regenAt (t + regen), denial_body pull history⟩)
        ∧ ((c.tokens_used : Int) < cap →
          get_rate_limit_regen_part regen res.1 1 = .regenAt (t + regen)))
    ∧ (c.oldest_counted = none →
        (¬ (c.tokens_used : Int) < cap →
          res.2.1 = .deniedHalt ⟨c.tokens_used, .noTokensUsed, denial_body pull history⟩)
        ∧ ((c.tokens_used : Int) < cap →
          get_rate_limit_regen_part regen res.1 1 = .regenAt (now + regen))) := by
  intro regen c res
  refine ⟨count_tokens_oldest now regen rt excl history, fun t ht => ⟨fun hge => ?_, fun hlt => ?_⟩,
    fun hn => ⟨fun hge => ?_, fun hlt => ?_⟩⟩
  · show (rate_limit_main false uw (some ⟨some cap, s, m, h, d, rt, pull, excl⟩)
      now history st).2.1 = _
    rw [rate_limit_main_denied uw cap s m h d rt pull excl now history st hge]
    show RLOutcome.deniedHalt ⟨c.tokens_used, regen_message_of c.oldest_counted regen,
      denial_body pull history⟩ = _
    rw [ht]
    rfl
  · show get_rate_limit_regen_part regen
      (rate_limit_main false uw (some ⟨some cap, s, m, h, d, rt, pull, excl⟩)
        now history st).1 1 = _
    rw [rate_limit_main_granted uw cap s m h d rt pull excl now history st hlt]
    show get_rate_limit_regen_part regen ⟨c.oldest_counted, some now, c.tokens_used + 1⟩ 1 = _
    rw [ht]
    rfl
  · show (rate_limit_main false uw (some ⟨some cap, s, m, h, d, rt, pull, excl⟩)
      now history st).2.1 = _
    rw [rate_limit_main_denied uw cap s m h d rt pull excl now history st hge]
    show RLOutcome.deniedHalt ⟨c.tokens_used, regen_message_of c.oldest_counted regen,
      denial_body pull history⟩ = _
    rw [hn]
    rfl
  · show get_rate_limit_regen_part regen
      (rate_limit_main false uw (some ⟨some cap, s, m, h, d, rt, pull, excl⟩)
        now history st).1 1 = _
    rw [rate_limit_main_granted uw cap s m h d rt pull excl now history st hlt]
    show get_rate_limit_regen_part regen ⟨c.oldest_counted, some now, c.tokens_used + 1⟩ 1 = _
    rw [hn]
    rfl

/-- Witness for C7 (amended): a history of one excluded record followed by two
counting records has its oldest counted record at the first counting one
(t = 60), and with capacity 1 the denial message reports regeneration at
60 + 100 = 160. -/
theorem C7_witness :
    (count_tokens 1000 980 none ["x"]
        [⟨50, .val ⟨.val ⟨.val 1, some "x"⟩, none, none, .absent⟩, none⟩,
         ⟨60, .val ⟨.val ⟨.val 1, some "a"⟩, none, none, .absent⟩, none⟩,
         ⟨70, .val ⟨.val ⟨.val 1, some "b"⟩, none, none, .absent⟩, none⟩]).oldest_counted
      = some 60
    ∧ (rate_limit_main false false (some ⟨some 1, 980, 0, 0, 0, none, false, ["x"]⟩) 1000
        [⟨50, .val ⟨.val ⟨.val 1, some "x"⟩, none, none, .absent⟩, none⟩,
         ⟨60, .val ⟨.val ⟨.val 1, some "a"⟩, none, none, .absent⟩, none⟩,
         ⟨70, .val ⟨.val ⟨.val 1, some "b"⟩, none, none, .absent⟩, none⟩]
        ⟨none, none, 0⟩).2.1
      = .deniedHalt ⟨2, .regenAt 1040, .selfZero⟩ := by
  have hm := C7_amended_oldest_and_message false 1 980 0 0 0 none false ["x"] 1000
    [⟨50, .val ⟨.val ⟨.val 1, some "x"⟩, none, none, .absent⟩, none⟩,
     ⟨60, .val ⟨.val ⟨.val 1, some "a"⟩, none, none, .absent⟩, none⟩,
     ⟨70, .val ⟨.val ⟨.val 1, some "b"⟩, none, none, .absent⟩, none⟩] ⟨none, none, 0⟩
  refine ⟨hm.1.trans (by decide), ?_⟩
  have hd := (hm.2.1 60 (hm.1.trans (by decide))).1 (by decide)
  exact hd.trans (by decide)

/-- Counterexample to claim C8: `RateLimit.__init__` with capacity 1 and a
window of zero total seconds succeeds and stores the configuration verbatim —
there is no rejection at construction and no `ConfigurationError` path in the
code — and under the resulting configuration even a submission counted at the
current instant lies outside the zero-second window, so the evaluation
grants: the configuration behaves as always-allowed, not as rejected. -/
theorem C8_counterexample :
    (RateLimit.init (some 1) 0 0 0 0 none false []).tokens = some 1
    ∧ (RateLimit.init (some 1) 0 0 0 0 none false []).total_seconds = 0
    ∧ (rate_limit_main false false (some (RateLimit.init (some 1) 0 0 0 0 none false [])) 100
        [⟨100, .val ⟨.val ⟨.val 1, some "x"⟩, none, none, .absent⟩, none⟩]
        ⟨none, none, 0⟩).2.1
      = .allowedProceed ⟨1, none⟩ := by decide

/-- Amended claim C8: construction performs no validation at all — every
argument combination is accepted and stored verbatim, including a non-null
capacity with a window totalling zero seconds; with such a configuration every
record not in the future is outside the window, so the evaluation counts no
tokens and allows every submission (for capacity at least 1): the case is
silently always-allowed rather than rejected or always-denied. -/
theorem C8_amended_no_construction_check (tk : Option Int) (s m h d : Int)
    (rt : Option Int) (pull : Bool) (excl : List String) :
    RateLimit.init tk s m h d rt pull excl = ⟨tk, s, m, h, d, rt, pull, excl⟩
    ∧ (RateLimit.init tk s m h d rt pull excl).total_seconds
        = s + 60 * (m + 60 * (h + 24 * d))
    ∧ (∀ cap now history st, tk = some cap → 1 ≤ cap →
        (RateLimit.init tk s m h d rt pull excl).total_seconds = 0 →
        (∀ r ∈ history, r.submitted_at ≤ now) →
        (rate_limit_main false false (some (RateLimit.init tk s m h d rt pull excl))
          now history st).2.1.isAllowed = true) := by
  refine ⟨rfl, rfl, fun cap now history st htk hcap hzero hpast => ?_⟩
  subst htk
  have hall : ∀ x ∈ history,
      RateLimit.total_seconds ⟨some cap, s, m, h, d, rt, pull, excl⟩ ≤ now - x.submitted_at := by
    intro x hx
    have := hpast x hx
    have hz : RateLimit.total_seconds ⟨some cap, s, m, h, d, rt, pull, excl⟩ = 0 := hzero
    omega
  have hct : count_tokens now (RateLimit.total_seconds ⟨some cap, s, m, h, d, rt, pull, excl⟩)
      rt excl history = ⟨0, none⟩ :=
    count_tokens_all_out now _ rt excl history hall
  have hlt : ((count_tokens now (RateLimit.total_seconds ⟨some cap, s, m, h, d, rt, pull, excl⟩)
      rt excl history).tokens_used : Int) < cap := by
    rw [hct]; exact_mod_cast hcap
  rw [show RateLimit.init (some cap) s m h d rt pull excl
      = (⟨some cap, s, m, h, d, rt, pull, excl⟩ : RateLimit) from rfl]
  rw [rate_limit_main_granted false cap s m h d rt pull excl now history st hlt]
  rfl

/-- Witness for C8 (amended): a zero-window capacity-1 configuration built by
the constructor accepts a submission over a history holding a counted record
from one second earlier. -/
theorem C8_witness :
    (rate_limit_main false false (some (RateLimit.init (some 1) 0 0 0 0 none false [])) 100
        [⟨99, .val ⟨.val ⟨.val 1, some "y"⟩, none, none, .absent⟩, none⟩]
        ⟨none, none, 0⟩).2.1.isAllowed = true :=
  (C8_amended_no_construction_check (some 1) 0 0 0 0 none false []).2.2 1 100
    [⟨99, .val ⟨.val ⟨.val 1, some "y"⟩, none, none, .absent⟩, none⟩]
    ⟨none, none, 0⟩ rfl (by decide) rfl
    (by intro r hr; simp at hr; rw [hr]; decide)

end GradescopeBase
